import Mathlib

/-!
# Verification of the agent tool-calling loop samples

Shallow embedding of the three observability samples
(`1-OpenAIAgents/weekend_planner.py`, `2-LangChain/weekend_planner.py`,
`3-LangGraph/music_router.py`) and proofs of the spec claims about them.

Conventions: Python dicts and environment lookups become association lists,
`random.random()` becomes an explicit rational draw parameter, the model
backend becomes an explicit list of responses it will return, and exceptions
become `Except` values.
-/

/-! ## Data model (spec §3, realized by the message types the samples use) -/

/-- A single tool-call request carried on an assistant message. -/
structure ToolCallRequest where
  call_id : String
  tool_name : String
  arguments : List (String × String)
deriving DecidableEq

/-- Message roles used by the samples. -/
inductive Role
  | user
  | assistant
  | tool
deriving DecidableEq

/-- One conversation message: role, text content, and the tool calls the
model attached to it (empty for non-assistant roles and final answers). -/
structure Message where
  role : Role
  content : String
  tool_calls : List ToolCallRequest
deriving DecidableEq

/-! ## LangGraph routing (`music_router.py`, `should_continue` lines 88-91 and
the conditional-edge dictionary at line 104) -/

/-- Function `should_continue` from `music_router.py`: inspect the last message of the
state; an empty `tool_calls` list is falsy in Python, so the function returns
"end" exactly when the last message carries no tool calls. -/
def should_continue (messages : List Message) (h : messages ≠ []) : String :=
  if (messages.getLast h).tool_calls = [] then "end" else "continue"

/-- Nodes of the compiled graph: the two added nodes plus the END sentinel. -/
inductive Node
  | agent
  | action
  | END
deriving DecidableEq

/-- The conditional-edge dictionary passed to `add_conditional_edges` at
line 104: it maps the label "continue" to the "action" node and "end" to END. -/
def agent_route (label : String) : Option Node :=
  if label = "continue" then some Node.action
  else if label = "end" then some Node.END
  else none

/-- The role-`tool` message the tool node feeds back for one request, given
the tool execution function. -/
def toolMessage (exec : ToolCallRequest → String) (tc : ToolCallRequest) : Message :=
  { role := Role.tool, content := exec tc, tool_calls := [] }

/-- Result of running the compiled workflow: the final answer, the number of
agent steps taken, the number of action (tool) steps taken, and the final
message list. -/
structure RunStats where
  answer : String
  agentSteps : Nat
  actionSteps : Nat
  finalMessages : List Message
deriving DecidableEq

/-- Execution of the compiled `WORKFLOW` graph (lines 100-108): from START the
graph enters "agent", which appends the model response; routing then follows
`agent_route (should_continue ...)`: "action" appends one tool message per
request (in request order) and returns to "agent"; END stops with the response
content as the answer.  The opaque model backend is embedded as the list of
responses it returns, consumed in order; `none` means the supplied responses
ran out before the loop ended. -/
def workflowRun (exec : ToolCallRequest → String) (msgs : List Message) :
    List Message → Option RunStats
  | [] => none
  | r :: rest =>
    match agent_route (should_continue (msgs ++ [r]) (by simp)) with
    | some Node.END => some ⟨r.content, 1, 0, msgs ++ [r]⟩
    | some Node.action =>
      match workflowRun exec ((msgs ++ [r]) ++ r.tool_calls.map (toolMessage exec)) rest with
      | none => none
      | some s => some ⟨s.answer, s.agentSteps + 1, s.actionSteps + 1, s.finalMessages⟩
    | _ => none

/-! ## Helper lemmas about the routing step -/

theorem getLast_append_singleton (msgs : List Message) (r : Message) :
    (msgs ++ [r]).getLast (by simp) = r := by
  simp

theorem should_continue_last (msgs : List Message) (r : Message) :
    should_continue (msgs ++ [r]) (by simp) =
      (if r.tool_calls = [] then "end" else "continue") := by
  unfold should_continue
  rw [getLast_append_singleton]

theorem workflowRun_final (exec : ToolCallRequest → String) (msgs : List Message)
    (r : Message) (rest : List Message) (hr : r.tool_calls = []) :
    workflowRun exec msgs (r :: rest) = some ⟨r.content, 1, 0, msgs ++ [r]⟩ := by
  unfold workflowRun
  rw [should_continue_last, if_pos hr]
  rfl

theorem workflowRun_toolcall (exec : ToolCallRequest → String) (msgs : List Message)
    (r : Message) (rest : List Message) (hr : r.tool_calls ≠ []) :
    workflowRun exec msgs (r :: rest) =
      match workflowRun exec ((msgs ++ [r]) ++ r.tool_calls.map (toolMessage exec)) rest with
      | none => none
      | some s => some ⟨s.answer, s.agentSteps + 1, s.actionSteps + 1, s.finalMessages⟩ := by
  conv_lhs => unfold workflowRun
  rw [should_continue_last, if_neg hr]
  rfl

/-! ## Concrete sample values used by witnesses -/

/-- The seed user message from `music_router.main` (apostrophes elided). -/
def seedMessage : Message :=
  { role := Role.user, content := "Can you play the most popular song?", tool_calls := [] }

/-- Tool `play_song_on_spotify` from `music_router.py` lines 70-74. -/
def play_song_on_spotify (song : String) : String :=
  "Successfully played " ++ song ++ " on Spotify!"

/-- Tool `play_song_on_apple` from `music_router.py` lines 77-81. -/
def play_song_on_apple (song : String) : String :=
  "Successfully played " ++ song ++ " on Apple Music!"

/-- Dispatch over the two registered tools, by name, reading the `song`
argument; unknown names yield an error text (the library surfaces unknown
tools as error results rather than raising). -/
def execMusicTool (tc : ToolCallRequest) : String :=
  match (tc.arguments.find? (fun p => p.1 = "song")).map (fun p => p.2) with
  | none => "Error: missing argument"
  | some song =>
    if tc.tool_name = "play_song_on_spotify" then play_song_on_spotify song
    else if tc.tool_name = "play_song_on_apple" then play_song_on_apple song
    else "Error: unknown tool"

/-- A sample tool-call request. -/
def sampleCall : ToolCallRequest :=
  { call_id := "call_1", tool_name := "play_song_on_spotify",
    arguments := [("song", "Shake It Off")] }

/-- A sample assistant message requesting one tool call. -/
def toolCallResponse : Message :=
  { role := Role.assistant, content := "", tool_calls := [sampleCall] }

/-- A sample final assistant message (no tool calls). -/
def finalResponse : Message :=
  { role := Role.assistant, content := "Playing it now.", tool_calls := [] }

/-! ## C1: routing decision -/

/-- C1: whenever the last message of the state carries a non-empty
`tool_calls` list, `should_continue` returns the CONTINUE label and the
conditional-edge map routes to the `action` node; whenever it is empty,
`should_continue` returns the END label, the edge map routes to END, and the
workflow stops with that message's `content` as the final answer. -/
theorem routing_decision_correct (msgs : List Message) (h : msgs ≠ []) :
    ((msgs.getLast h).tool_calls ≠ [] →
      should_continue msgs h = "continue" ∧
      agent_route (should_continue msgs h) = some Node.action) ∧
    ((msgs.getLast h).tool_calls = [] →
      should_continue msgs h = "end" ∧
      agent_route (should_continue msgs h) = some Node.END) ∧
    (∀ (exec : ToolCallRequest → String) (prev : List Message) (r : Message)
        (rest : List Message), r.tool_calls = [] →
      workflowRun exec prev (r :: rest) =
        some { answer := r.content, agentSteps := 1, actionSteps := 0,
               finalMessages := prev ++ [r] }) := by
  refine ⟨fun hne => ?_, fun he => ?_, fun exec prev r rest hr => workflowRun_final exec prev r rest hr⟩
  · unfold should_continue
    rw [if_neg hne]
    exact ⟨rfl, rfl⟩
  · unfold should_continue
    rw [if_pos he]
    exact ⟨rfl, rfl⟩

/-- Witness for C1 at a concrete state whose last message has no tool calls. -/
theorem routing_decision_correct_witness :
    should_continue [seedMessage, finalResponse] (by simp) = "end" ∧
    agent_route (should_continue [seedMessage, finalResponse] (by simp)) = some Node.END :=
  (routing_decision_correct [seedMessage, finalResponse] (by simp)).2.1 rfl

/-! ## C2: exactly N ACTION transitions -/

/-- C2: when the model returns `n` responses carrying tool calls followed by
one response with none, the workflow performs exactly `n` action steps and
`n + 1` agent steps and ends with the final response's content as the
answer, from any starting message list. -/
theorem action_transition_count (exec : ToolCallRequest → String)
    (msgs : List Message) (pre : List Message) (final : Message)
    (hpre : ∀ r ∈ pre, r.tool_calls ≠ []) (hfin : final.tool_calls = []) :
    ∃ s : RunStats, workflowRun exec msgs (pre ++ [final]) = some s ∧
      s.actionSteps = pre.length ∧ s.agentSteps = pre.length + 1 ∧
      s.answer = final.content := by
  induction pre generalizing msgs with
  | nil =>
    exact ⟨_, workflowRun_final exec msgs final [] hfin, rfl, rfl, rfl⟩
  | cons r pre ih =>
    have hr : r.tool_calls ≠ [] := hpre r (List.mem_cons_self r pre)
    obtain ⟨s, hs, ha, hg, hw⟩ :=
      ih ((msgs ++ [r]) ++ r.tool_calls.map (toolMessage exec))
        (fun x hx => hpre x (List.mem_cons_of_mem r hx))
    refine ⟨⟨s.answer, s.agentSteps + 1, s.actionSteps + 1, s.finalMessages⟩, ?_, ?_, ?_, hw⟩
    · rw [List.cons_append, workflowRun_toolcall exec msgs r (pre ++ [final]) hr, hs]
    · simpa using ha
    · simpa using hg

/-- Witness for C2: one tool-call round then a final answer gives exactly one
action step and two agent steps. -/
theorem action_transition_count_witness :
    ∃ s : RunStats,
      workflowRun execMusicTool [seedMessage] ([toolCallResponse] ++ [finalResponse]) = some s ∧
      s.actionSteps = [toolCallResponse].length ∧
      s.agentSteps = [toolCallResponse].length + 1 ∧
      s.answer = finalResponse.content :=
  action_transition_count execMusicTool [seedMessage] [toolCallResponse] finalResponse
    (by intro r hr; simp at hr; subst hr; decide) (by decide)

/-! ## C8: the history is only ever appended to -/

/-- C8: every run of the workflow leaves the starting message list as an
unchanged prefix of the final message list: only appends happen, so no prior
entry is lost, mutated, or reordered. -/
theorem workflowRun_append_only (exec : ToolCallRequest → String)
    (msgs responses : List Message) (s : RunStats)
    (hs : workflowRun exec msgs responses = some s) :
    (∃ t, s.finalMessages = msgs ++ t) ∧
    (∀ i, i < msgs.length → s.finalMessages.get? i = msgs.get? i) := by
  have hpre : ∃ t, s.finalMessages = msgs ++ t := by
    induction responses generalizing msgs s with
    | nil => exact absurd hs (by simp [workflowRun])
    | cons r rest ih =>
      by_cases hr : r.tool_calls = []
      · rw [workflowRun_final exec msgs r rest hr] at hs
        exact ⟨[r], by simp [← Option.some_inj.mp hs]⟩
      · rw [workflowRun_toolcall exec msgs r rest hr] at hs
        cases hrec : workflowRun exec ((msgs ++ [r]) ++ r.tool_calls.map (toolMessage exec)) rest with
        | none => rw [hrec] at hs; exact absurd hs (by simp)
        | some s2 =>
          rw [hrec] at hs
          obtain ⟨t, ht⟩ := ih _ s2 hrec
          refine ⟨[r] ++ r.tool_calls.map (toolMessage exec) ++ t, ?_⟩
          have : s.finalMessages = s2.finalMessages := by
            rw [← Option.some_inj.mp hs]
          rw [this, ht]
          simp
  refine ⟨hpre, ?_⟩
  obtain ⟨t, ht⟩ := hpre
  intro i hi
  rw [ht, List.get?_append hi]

/-- Witness for C8 at a concrete one-round run. -/
theorem workflowRun_append_only_witness :
    ∃ t, ([seedMessage, toolCallResponse, toolMessage execMusicTool sampleCall,
           finalResponse] : List Message) = [seedMessage] ++ t :=
  (workflowRun_append_only execMusicTool [seedMessage] [toolCallResponse, finalResponse]
    { answer := finalResponse.content, agentSteps := 2, actionSteps := 1,
      finalMessages := [seedMessage, toolCallResponse, toolMessage execMusicTool sampleCall,
        finalResponse] }
    (by rfl)).1

/-! ## C3: optional turn limit (modelled from the spec) -/

/-- Outcome of a limited run: a final answer, the turn-limit failure, or the
supplied responses running out first. -/
inductive TurnOutcome
  | finalAnswer (answer : String)
  | turnLimitExceeded
  | exhausted
deriving DecidableEq

/-- Whether an optional turn limit has been reached by a count of completed
tool-call turns: `none` means unbounded. -/
def limitReached : Option Nat → Nat → Bool
  | none, _ => false
  | some k, t => k ≤ t

/-- Modelled from the spec: the driver that executes the compiled `WORKFLOW`
(and any turn bound on it) is library code not present under `src/`; per the
spec, the Turn Controller accepts an optional `max_turns` configuration and
fails with `TurnLimitExceeded` when the count of consecutive tool-call turns
reaches the bound.  Same loop as `workflowRun`, with the tool-turn counter
`toolTurns` checked against the optional limit. -/
def runLimited (exec : ToolCallRequest → String) (max_turns : Option Nat)
    (toolTurns : Nat) (msgs : List Message) : List Message → TurnOutcome
  | [] => TurnOutcome.exhausted
  | r :: rest =>
    if r.tool_calls = [] then TurnOutcome.finalAnswer r.content
    else if limitReached max_turns (toolTurns + 1) then TurnOutcome.turnLimitExceeded
    else runLimited exec max_turns (toolTurns + 1)
      ((msgs ++ [r]) ++ r.tool_calls.map (toolMessage exec)) rest

theorem runLimited_exceeds (exec : ToolCallRequest → String) (j : Nat) :
    ∀ (t : Nat) (msgs : List Message) (responses : List Message),
      1 ≤ j →
      (∀ i, i < j → ∃ r, responses.get? i = some r ∧ r.tool_calls ≠ []) →
      runLimited exec (some (t + j)) t msgs responses = TurnOutcome.turnLimitExceeded := by
  induction j with
  | zero => intro t msgs responses hj; omega
  | succ j ih =>
    intro t msgs responses _ hresp
    obtain ⟨r, hr0, hrtc⟩ := hresp 0 (Nat.succ_pos j)
    cases responses with
    | nil => simp at hr0
    | cons r0 rest =>
      have hr0eq : r0 = r := by simpa using hr0
      subst hr0eq
      unfold runLimited
      rw [if_neg hrtc]
      by_cases hj : j = 0
      · subst hj
        have : limitReached (some (t + 1)) (t + 1) = true := by
          simp [limitReached]
        rw [this]
        simp
      · have hlim : limitReached (some (t + (j + 1))) (t + 1) = false := by
          simp [limitReached]
          omega
        rw [hlim]
        simp only [Bool.false_eq_true, if_false]
        have := ih (t + 1) ((msgs ++ [r0]) ++ r0.tool_calls.map (toolMessage exec)) rest
          (Nat.one_le_iff_ne_zero.mpr hj)
          (fun i hi => by
            obtain ⟨r2, hr2, htc2⟩ := hresp (i + 1) (by omega)
            exact ⟨r2, by simpa using hr2, htc2⟩)
        have harith : t + 1 + j = t + (j + 1) := by omega
        rw [harith] at this
        exact this

theorem runLimited_none_no_limit (exec : ToolCallRequest → String) :
    ∀ (responses : List Message) (t : Nat) (msgs : List Message),
      runLimited exec none t msgs responses ≠ TurnOutcome.turnLimitExceeded := by
  intro responses
  induction responses with
  | nil => intro t msgs; simp [runLimited]
  | cons r rest ih =>
    intro t msgs
    unfold runLimited
    by_cases hr : r.tool_calls = []
    · rw [if_pos hr]; simp
    · rw [if_neg hr]
      have : limitReached none (t + 1) = false := rfl
      rw [this]
      simp only [Bool.false_eq_true, if_false]
      exact ih (t + 1) ((msgs ++ [r]) ++ r.tool_calls.map (toolMessage exec))

/-- C3: the Turn Controller takes an optional `max_turns`; with
`max_turns = some k` and a model that returns tool calls on the first `k`
turns, the run fails with `TurnLimitExceeded`, while `max_turns = none` never
produces that failure — so a perpetually tool-requesting model cannot loop
past a configured bound. -/
theorem turn_limit_exceeded (exec : ToolCallRequest → String) (k : Nat)
    (responses : List Message) (hk : 1 ≤ k)
    (hresp : ∀ i, i < k → ∃ r, responses.get? i = some r ∧ r.tool_calls ≠ []) :
    runLimited exec (some k) 0 [] responses = TurnOutcome.turnLimitExceeded ∧
    (∀ (rs : List Message) (t : Nat) (ms : List Message),
      runLimited exec none t ms rs ≠ TurnOutcome.turnLimitExceeded) := by
  constructor
  · have := runLimited_exceeds exec k 0 [] responses hk hresp
    simpa using this
  · exact fun rs t ms => runLimited_none_no_limit exec rs t ms

/-- Witness for C3 with limit 2 and two consecutive tool-call responses. -/
theorem turn_limit_exceeded_witness :
    runLimited execMusicTool (some 2) 0 [] [toolCallResponse, toolCallResponse] =
      TurnOutcome.turnLimitExceeded :=
  (turn_limit_exceeded execMusicTool 2 [toolCallResponse, toolCallResponse]
    (by decide)
    (by
      intro i hi
      interval_cases i <;> exact ⟨toolCallResponse, rfl, by decide⟩)).1

/-! ## Span model and the Session Runner `main`
(`1-OpenAIAgents/weekend_planner.py` lines 247-274) -/

/-- Span attribute values used by `main`: strings and booleans. -/
inductive AttrValue
  | str (s : String)
  | bool (b : Bool)
deriving DecidableEq

/-- A recorded span: name, attributes in write order, recorded exceptions,
and how many times it has been closed. -/
structure Span where
  name : String
  attributes : List (String × AttrValue)
  recordedExceptions : List String
  closeCount : Nat
deriving DecidableEq

/-- Method `span.set_attribute(key, value)`: record the write (last write wins on
lookup). -/
def set_attribute (s : Span) (k : String) (v : AttrValue) : Span :=
  { s with attributes := s.attributes ++ [(k, v)] }

/-- Method `span.record_exception(exc)`. -/
def record_exception (s : Span) (e : String) : Span :=
  { s with recordedExceptions := s.recordedExceptions ++ [e] }

/-- Closing the span once (the context manager does this on scope exit). -/
def closeSpan (s : Span) : Span :=
  { s with closeCount := s.closeCount + 1 }

/-- Last-write-wins lookup of an attribute. -/
def attrValue (s : Span) (k : String) : Option AttrValue :=
  (s.attributes.reverse.find? (fun p => p.1 = k)).map (fun p => p.2)

/-- Function `_root_span_name` from the source (renamed; the source name is the
underscore-prefixed form): formats the session span name. -/
def rootSpanName (provider : String) : String :=
  "weekend_planning_session[" ++ provider ++ "]"

/-- The fixed user request string in `main`. -/
def user_request : String := "Hi, what can I do this weekend in Seattle?"

/-- Value `AGENT.name` from the source. -/
def agentName : String := "Weekend Planner"

/-- Outcome of `Runner.run`: success with the (possibly missing) final
output, or an exception. -/
inductive RunnerOutcome
  | success (finalOutput : Option String)
  | failure (exc : String)
deriving DecidableEq

/-- Python slicing `s[:n]` on the text. -/
def strTake (s : String) (n : Nat) : String := String.mk (s.data.take n)

/-- Function `main` from `weekend_planner.py` lines 251-274: open the root span via the
context manager (closed exactly once on every exit), set the five request
attributes, then either record the truncated response and a true success flag
(success path) or record the exception, set the success flag false, and
re-raise (failure path).  Returns the final span together with the normal or
exceptional result. -/
def weekendPlannerMain (provider modelName : String) (outcome : RunnerOutcome) :
    Span × Except String Unit :=
  let span0 : Span := { name := rootSpanName provider, attributes := [],
                        recordedExceptions := [], closeCount := 0 }
  let span1 := set_attribute span0 "user.request" (AttrValue.str user_request)
  let span2 := set_attribute span1 "gen_ai.provider.name" (AttrValue.str provider)
  let span3 := set_attribute span2 "gen_ai.request.model" (AttrValue.str modelName)
  let span4 := set_attribute span3 "agent.name" (AttrValue.str agentName)
  let span5 := set_attribute span4 "target.city" (AttrValue.str "Seattle")
  match outcome with
  | RunnerOutcome.success fo =>
    let output := fo.getD ""
    let span6 := set_attribute span5 "agent.response" (AttrValue.str (strTake output 500))
    let span7 := set_attribute span6 "request.success" (AttrValue.bool true)
    (closeSpan span7, Except.ok ())
  | RunnerOutcome.failure exc =>
    let span6 := record_exception span5 exc
    let span7 := set_attribute span6 "request.success" (AttrValue.bool false)
    (closeSpan span7, Except.error exc)

/-! ## C4: root span closure and failure handling -/

/-- C4: whatever the Turn Controller outcome, the root span is closed exactly
once before `main` returns; on failure the exception is recorded on the span,
the success attribute is set to false, and the same failure is re-raised to
the caller. -/
theorem root_span_closed_once (provider modelName : String) (outcome : RunnerOutcome) :
    (weekendPlannerMain provider modelName outcome).1.closeCount = 1 ∧
    (∀ exc, outcome = RunnerOutcome.failure exc →
      exc ∈ (weekendPlannerMain provider modelName outcome).1.recordedExceptions ∧
      attrValue (weekendPlannerMain provider modelName outcome).1 "request.success" =
        some (AttrValue.bool false) ∧
      (weekendPlannerMain provider modelName outcome).2 = Except.error exc) := by
  cases outcome with
  | success fo =>
    refine ⟨rfl, ?_⟩
    intro exc h
    cases h
  | failure exc0 =>
    refine ⟨rfl, ?_⟩
    intro exc h
    cases h
    refine ⟨?_, ?_, rfl⟩
    · simp [weekendPlannerMain, record_exception, set_attribute, closeSpan]
    · simp [weekendPlannerMain, record_exception, set_attribute, closeSpan, attrValue]

/-- Witness for C4 on a concrete failing run. -/
theorem root_span_closed_once_witness :
    (weekendPlannerMain "azure.ai.inference" "gpt-4o"
        (RunnerOutcome.failure "boom")).1.closeCount = 1 ∧
    "boom" ∈ (weekendPlannerMain "azure.ai.inference" "gpt-4o"
        (RunnerOutcome.failure "boom")).1.recordedExceptions ∧
    (weekendPlannerMain "azure.ai.inference" "gpt-4o"
        (RunnerOutcome.failure "boom")).2 = Except.error "boom" := by
  have h := root_span_closed_once "azure.ai.inference" "gpt-4o" (RunnerOutcome.failure "boom")
  exact ⟨h.1, (h.2 "boom" rfl).1, (h.2 "boom" rfl).2.2⟩

/-! ## C5: session span attributes on success -/

theorem strTake_of_le (out : String) (h : out.data.length ≤ 500) :
    strTake out 500 = out := by
  cases out with
  | mk data =>
    simp only [strTake]
    congr 1
    exact List.take_of_length_le h

/-- C5: on a successful run the root span carries the agent name, the request
text, a true success flag, and the response truncated to 500 characters; the
recorded response equals the first 500 characters when the answer is longer
and the whole answer otherwise. -/
theorem session_span_attributes (provider modelName out : String) :
    attrValue (weekendPlannerMain provider modelName
        (RunnerOutcome.success (some out))).1 "agent.name" =
      some (AttrValue.str agentName) ∧
    attrValue (weekendPlannerMain provider modelName
        (RunnerOutcome.success (some out))).1 "user.request" =
      some (AttrValue.str user_request) ∧
    attrValue (weekendPlannerMain provider modelName
        (RunnerOutcome.success (some out))).1 "request.success" =
      some (AttrValue.bool true) ∧
    attrValue (weekendPlannerMain provider modelName
        (RunnerOutcome.success (some out))).1 "agent.response" =
      some (AttrValue.str (strTake out 500)) ∧
    (out.data.length ≤ 500 → strTake out 500 = out) ∧
    (500 < out.data.length →
      (strTake out 500).data = out.data.take 500 ∧
      (strTake out 500).data.length = 500) := by
  refine ⟨?_, ?_, ?_, ?_, fun h => strTake_of_le out h, fun h => ⟨rfl, ?_⟩⟩
  · simp [weekendPlannerMain, set_attribute, closeSpan, attrValue]
  · simp [weekendPlannerMain, set_attribute, closeSpan, attrValue]
  · simp [weekendPlannerMain, set_attribute, closeSpan, attrValue]
  · simp [weekendPlannerMain, set_attribute, closeSpan, attrValue]
  · simp only [strTake, List.length_take]
    omega

/-- Witness for C5 on a short concrete answer. -/
theorem session_span_attributes_witness :
    attrValue (weekendPlannerMain "azure.ai.inference" "gpt-4o"
        (RunnerOutcome.success (some "Go hiking."))).1 "request.success" =
      some (AttrValue.bool true) ∧
    strTake "Go hiking." 500 = "Go hiking." := by
  have h := session_span_attributes "azure.ai.inference" "gpt-4o" "Go hiking."
  exact ⟨h.2.2.1, h.2.2.2.2.1 (by decide)⟩

/-! ## C6: checkpoint / restore round trip (modelled from the spec) -/

/-- Conversation state per spec §3: thread id, ordered messages, turn count. -/
structure ConversationState where
  thread_id : String
  messages : List Message
  turn_count : Nat
deriving DecidableEq

/-- Modelled from the spec: the `MemorySaver` checkpointer behind `MEMORY`
(`music_router.py` line 107) is library code not present under `src/`; per the
spec, the snapshot token is the Message sequence plus the thread id, nothing
more. -/
structure SnapshotToken where
  thread_id : String
  messages : List Message
deriving DecidableEq

/-- Modelled from the spec: `checkpoint(thread_id)` returns the snapshot of
the thread state. -/
def checkpoint (st : ConversationState) : SnapshotToken :=
  { thread_id := st.thread_id, messages := st.messages }

/-- Modelled from the spec: `restore(token)` recreates the ConversationState
from the snapshot; the turn count is re-derived from the restored history
since the snapshot carries only the messages and the thread id. -/
def restore (tok : SnapshotToken) : ConversationState :=
  { thread_id := tok.thread_id, messages := tok.messages,
    turn_count := tok.messages.length }

/-- C6: restoring a checkpoint token reproduces the exact message sequence
present at the moment of the checkpoint, element-wise, for every thread state. -/
theorem checkpoint_restore_roundtrip (st : ConversationState) :
    (restore (checkpoint st)).messages = st.messages ∧
    (restore (checkpoint st)).thread_id = st.thread_id ∧
    (∀ i, (restore (checkpoint st)).messages.get? i = st.messages.get? i) :=
  ⟨rfl, rfl, fun _ => rfl⟩

/-! ## C7: feedback order equals request order (modelled from the spec) -/

/-- Modelled from the spec: tool executions of one round complete in an
arbitrary order `order` (a list of request indices); each completion deposits
its result, keyed by request index, into a buffer in completion order. -/
def completedResults (exec : ToolCallRequest → String)
    (requests : List ToolCallRequest) (order : List Nat) : List (Nat × String) :=
  order.filterMap (fun i => (requests.get? i).map (fun r => (i, exec r)))

/-- Assemble tool-result messages by walking the requests in order (index `i`
onward) and looking each request's result up in the completion buffer. -/
def feedbackAux (buffer : List (Nat × String)) : Nat → List ToolCallRequest → List Message
  | _, [] => []
  | i, _ :: rs =>
    match (buffer.find? (fun p => p.1 = i)).map
        (fun p => Message.mk Role.tool p.2 []) with
    | none => feedbackAux buffer (i + 1) rs
    | some m => m :: feedbackAux buffer (i + 1) rs

/-- Modelled from the spec: `ToolNode` (`music_router.py` line 85) is library
code not present under `src/`; per spec §4.2 the results of a multi-call round
are fed back into the next Message in request order, whatever the completion
order of the executions was. -/
def feedbackMessages (exec : ToolCallRequest → String)
    (requests : List ToolCallRequest) (order : List Nat) : List Message :=
  feedbackAux (completedResults exec requests order) 0 requests

theorem completedResults_find (exec : ToolCallRequest → String)
    (requests : List ToolCallRequest) :
    ∀ (order : List Nat) (i : Nat) (r : ToolCallRequest),
      i ∈ order → requests.get? i = some r →
      (completedResults exec requests order).find? (fun p => p.1 = i) =
        some (i, exec r) := by
  intro order
  induction order with
  | nil => intro i r hmem; cases hmem
  | cons j order ih =>
    intro i r hmem hget
    unfold completedResults
    rw [List.filterMap_cons]
    by_cases hji : j = i
    · subst hji
      rw [hget]
      simp only [Option.map_some']
      rw [List.find?_cons_of_pos _ (by simp)]
    · cases hgj : requests.get? j with
      | none =>
        simp only [hgj, Option.map_none']
        have : i ∈ order := by
          cases List.mem_cons.mp hmem with
          | inl h => exact absurd h.symm hji
          | inr h => exact h
        exact ih i r this hget
      | some rj =>
        simp only [hgj, Option.map_some']
        rw [List.find?_cons_of_neg _ (by simp [hji])]
        have : i ∈ order := by
          cases List.mem_cons.mp hmem with
          | inl h => exact absurd h.symm hji
          | inr h => exact h
        exact ih i r this hget

theorem feedbackAux_eq_map (buffer : List (Nat × String))
    (exec : ToolCallRequest → String) :
    ∀ (rs : List ToolCallRequest) (i : Nat),
      (∀ (j : Nat) (r : ToolCallRequest), rs.get? j = some r →
        buffer.find? (fun p => p.1 = i + j) = some (i + j, exec r)) →
      feedbackAux buffer i rs = rs.map (toolMessage exec) := by
  intro rs
  induction rs with
  | nil => intro i _; rfl
  | cons r rs ih =>
    intro i hbuf
    have hhead := hbuf 0 r rfl
    rw [Nat.add_zero] at hhead
    unfold feedbackAux
    rw [hhead]
    simp only [Option.map_some']
    have htail : ∀ (j : Nat) (x : ToolCallRequest), rs.get? j = some x →
        buffer.find? (fun p => p.1 = (i + 1) + j) = some ((i + 1) + j, exec x) := by
      intro j x hx
      have := hbuf (j + 1) x (by simpa using hx)
      have harith : i + (j + 1) = (i + 1) + j := by omega
      rw [harith] at this
      exact this
    rw [ih (i + 1) htail]
    rfl

/-- C7: whenever every pending request index completes (in any order), the
tool-result messages fed back equal one role-`tool` message per request, in
exactly the order the requests appear in `tool_calls` — the completion order
does not affect the feedback order. -/
theorem feedback_order_preserved (exec : ToolCallRequest → String)
    (requests : List ToolCallRequest) (order : List Nat)
    (horder : ∀ i, i < requests.length → i ∈ order) :
    feedbackMessages exec requests order = requests.map (toolMessage exec) := by
  unfold feedbackMessages
  refine feedbackAux_eq_map _ exec requests 0 ?_
  intro j r hget
  have hj : j < requests.length := by
    by_contra hge
    rw [List.get?_eq_none.mpr (Nat.le_of_not_lt hge)] at hget
    cases hget
  have := completedResults_find exec requests order j r (horder j hj) hget
  simpa using this

/-- Witness for C7: two requests completing in reversed order still feed back
in request order. -/
theorem feedback_order_preserved_witness :
    feedbackMessages execMusicTool
      [sampleCall, { call_id := "call_2", tool_name := "play_song_on_apple",
                     arguments := [("song", "Cruel Summer")] }] [1, 0] =
    [sampleCall, { call_id := "call_2", tool_name := "play_song_on_apple",
                   arguments := [("song", "Cruel Summer")] }].map
      (toolMessage execMusicTool) :=
  feedback_order_preserved execMusicTool
    [sampleCall, { call_id := "call_2", tool_name := "play_song_on_apple",
                   arguments := [("song", "Cruel Summer")] }] [1, 0]
    (by intro i hi; simp only [List.length_cons, List.length_nil] at hi; interval_cases i <;> simp)

/-! ## C9: the simulated weather tool -/

/-- Return payload of `get_weather` in `1-OpenAIAgents/weekend_planner.py`. -/
structure WeatherReportAgents where
  city : String
  temperature : Nat
  description : String
deriving DecidableEq

/-- Tool `get_weather` from `1-OpenAIAgents/weekend_planner.py` lines 206-211: the
`random.random()` draw is passed in explicitly as a rational in place of the
float; the 5% branch returns Sunny/72, the other returns Rainy/60. -/
def get_weather (city : String) (randomDraw : ℚ) : WeatherReportAgents :=
  if randomDraw < 5 / 100 then
    { city := city, temperature := 72, description := "Sunny" }
  else
    { city := city, temperature := 60, description := "Rainy" }

/-- Return payload of `get_weather` in `2-LangChain/weekend_planner.py`. -/
structure WeatherReportLangChain where
  temperature : Nat
  description : String
deriving DecidableEq

/-- Tool `get_weather` from `2-LangChain/weekend_planner.py` lines 84-91 (same
draw, no city echoed back, extra unused `date` argument). -/
def get_weather_langchain (city date : String) (randomDraw : ℚ) : WeatherReportLangChain :=
  if randomDraw < 5 / 100 then
    { temperature := 72, description := "Sunny" }
  else
    { temperature := 60, description := "Rainy" }

/-- C9: for every city (and date) and every outcome of the random draw, both
`get_weather` variants return exactly one of the two fixed reports — Sunny at
72 or Rainy at 60; no other temperature or description can be produced, and
the call always returns a value. -/
theorem get_weather_two_outcomes (city date : String) (randomDraw : ℚ) :
    (get_weather city randomDraw =
        { city := city, temperature := 72, description := "Sunny" } ∨
     get_weather city randomDraw =
        { city := city, temperature := 60, description := "Rainy" }) ∧
    (get_weather_langchain city date randomDraw =
        { temperature := 72, description := "Sunny" } ∨
     get_weather_langchain city date randomDraw =
        { temperature := 60, description := "Rainy" }) := by
  unfold get_weather get_weather_langchain
  by_cases h : randomDraw < 5 / 100
  · rw [if_pos h, if_pos h]
    exact ⟨Or.inl rfl, Or.inl rfl⟩
  · rw [if_neg h, if_neg h]
    exact ⟨Or.inr rfl, Or.inr rfl⟩

/-! ## C10: configuration resolution -/

/-- Process environment as an association list; absent keys are `none`. -/
def EnvMap := List (String × String)

/-- Lookup `os.environ.get(key)` / `os.getenv(key)`. -/
def getEnvOpt (env : EnvMap) (k : String) : Option String :=
  (env.find? (fun p => p.1 = k)).map (fun p => p.2)

/-- Lookup `os.getenv(key, default)`. -/
def getEnvD (env : EnvMap) (k d : String) : String :=
  (getEnvOpt env k).getD d

/-- Python `str.lower()` on one character: shift the ASCII uppercase range
down by 32 (the host strings involved are ASCII). -/
def charLower (c : Char) : Char :=
  if 65 ≤ c.toNat ∧ c.toNat ≤ 90 then Char.ofNat (c.toNat + 32) else c

/-- Python `str.lower()` (`String.toLower` does not reduce in the kernel, so
the same map is spelled out). -/
def strLower (s : String) : String := String.mk (s.data.map charLower)

/-- The exceptions configuration resolution can raise: `ValueError` for an
unrecognized host, `KeyError` for a mandatory `os.environ[...]` lookup that
misses. -/
inductive ConfigError
  | valueError
  | keyError (key : String)
deriving DecidableEq

/-- The client object `_build_model` returns (constructor arguments only;
the network clients themselves are external). -/
inductive ModelClient
  | azureChatOpenAI (endpoint deployment apiVersion : Option String)
  | chatOpenAI (model baseUrl : String) (apiKey : Option String)
deriving DecidableEq

/-- Function `_build_model` from `music_router.py` lines 38-60 (textually identical in
`2-LangChain/weekend_planner.py` lines 52-74): lowercase the host, build the
matching client from optional env lookups, raise `ValueError` otherwise. -/
def build_model (env : EnvMap) : Except ConfigError ModelClient :=
  let host := strLower (getEnvD env "API_HOST" "github")
  if host = "azure" then
    Except.ok (ModelClient.azureChatOpenAI (getEnvOpt env "AZURE_OPENAI_ENDPOINT")
      (getEnvOpt env "AZURE_OPENAI_CHAT_DEPLOYMENT")
      (getEnvOpt env "AZURE_OPENAI_VERSION"))
  else if host = "github" then
    Except.ok (ModelClient.chatOpenAI (getEnvD env "GITHUB_MODEL" "gpt-4o")
      (getEnvD env "GITHUB_OPENAI_BASE_URL" "https://models.inference.ai.azure.com")
      (getEnvOpt env "GITHUB_TOKEN"))
  else Except.error ConfigError.valueError

/-- Structure `_ApiConfig` from `1-OpenAIAgents/weekend_planner.py` (the `build_client`
closure is carried by `provider`/`base_url`; the client itself is external). -/
structure ApiConfig where
  model_name : String
  base_url : String
  provider : String
deriving DecidableEq

/-- Python `s.rstrip("/")`. -/
def rstripSlash (s : String) : String :=
  String.mk (s.data.reverse.dropWhile (fun c => c = '/')).reverse

/-- Function `_resolve_api_config` from `1-OpenAIAgents/weekend_planner.py` lines
115-163: lowercase the host; the github branch reads `GITHUB_TOKEN` with a
mandatory lookup (KeyError when absent), the azure branch reads the three
`AZURE_OPENAI_*` variables mandatorily, and any other host raises
`ValueError`. -/
def resolve_api_config (env : EnvMap) : Except ConfigError ApiConfig :=
  let host := strLower (getEnvD env "API_HOST" "github")
  if host = "github" then
    let base_url := rstripSlash
      (getEnvD env "GITHUB_OPENAI_BASE_URL" "https://models.inference.ai.azure.com")
    let model_name := getEnvD env "GITHUB_MODEL" "gpt-4o"
    match getEnvOpt env "GITHUB_TOKEN" with
    | none => Except.error (ConfigError.keyError "GITHUB_TOKEN")
    | some _ =>
      Except.ok { model_name := model_name, base_url := base_url,
                  provider := "azure.ai.inference" }
  else if host = "azure" then
    match getEnvOpt env "AZURE_OPENAI_ENDPOINT" with
    | none => Except.error (ConfigError.keyError "AZURE_OPENAI_ENDPOINT")
    | some endpointRaw =>
      match getEnvOpt env "AZURE_OPENAI_VERSION" with
      | none => Except.error (ConfigError.keyError "AZURE_OPENAI_VERSION")
      | some _ =>
        match getEnvOpt env "AZURE_OPENAI_CHAT_DEPLOYMENT" with
        | none => Except.error (ConfigError.keyError "AZURE_OPENAI_CHAT_DEPLOYMENT")
        | some deployment =>
          Except.ok { model_name := deployment, base_url := rstripSlash endpointRaw,
                      provider := "azure.ai.openai" }
  else Except.error ConfigError.valueError

/-- Whether resolution produced a configuration. -/
def exceptOk {α : Type} : Except ConfigError α → Bool
  | Except.ok _ => true
  | Except.error _ => false

/-- C10 fails as stated: with `API_HOST=github` (a recognized host) but no
`GITHUB_TOKEN` in the environment, `_resolve_api_config` raises `KeyError`
instead of returning a client configuration. -/
theorem config_resolution_counterexample :
    resolve_api_config [("API_HOST", "github")] =
      Except.error (ConfigError.keyError "GITHUB_TOKEN") ∧
    exceptOk (resolve_api_config [("API_HOST", "github")]) = false := by
  constructor <;> rfl

/-- C10 (amended): when `API_HOST` is unset it defaults to "github"; for a
host equal to "github" or "azure" in any letter case, `_build_model` always
returns a client configuration, and `_resolve_api_config` returns one
provided its mandatory credential variables are present, raising `KeyError`
naming the first missing mandatory variable otherwise; for every other host
value both raise `ValueError` without building any client. -/
theorem config_resolution_amended (env : EnvMap) :
    (getEnvOpt env "API_HOST" = none → getEnvD env "API_HOST" "github" = "github") ∧
    (strLower (getEnvD env "API_HOST" "github") ≠ "github" →
     strLower (getEnvD env "API_HOST" "github") ≠ "azure" →
      resolve_api_config env = Except.error ConfigError.valueError ∧
      build_model env = Except.error ConfigError.valueError) ∧
    (strLower (getEnvD env "API_HOST" "github") = "azure" →
      exceptOk (build_model env) = true ∧
      (getEnvOpt env "AZURE_OPENAI_ENDPOINT" = none →
        resolve_api_config env =
          Except.error (ConfigError.keyError "AZURE_OPENAI_ENDPOINT")) ∧
      (getEnvOpt env "AZURE_OPENAI_ENDPOINT" ≠ none →
       getEnvOpt env "AZURE_OPENAI_VERSION" = none →
        resolve_api_config env =
          Except.error (ConfigError.keyError "AZURE_OPENAI_VERSION")) ∧
      (getEnvOpt env "AZURE_OPENAI_ENDPOINT" ≠ none →
       getEnvOpt env "AZURE_OPENAI_VERSION" ≠ none →
       getEnvOpt env "AZURE_OPENAI_CHAT_DEPLOYMENT" = none →
        resolve_api_config env =
          Except.error (ConfigError.keyError "AZURE_OPENAI_CHAT_DEPLOYMENT")) ∧
      (getEnvOpt env "AZURE_OPENAI_ENDPOINT" ≠ none →
       getEnvOpt env "AZURE_OPENAI_VERSION" ≠ none →
       getEnvOpt env "AZURE_OPENAI_CHAT_DEPLOYMENT" ≠ none →
        exceptOk (resolve_api_config env) = true)) ∧
    (strLower (getEnvD env "API_HOST" "github") = "github" →
      exceptOk (build_model env) = true ∧
      (getEnvOpt env "GITHUB_TOKEN" = none →
        resolve_api_config env = Except.error (ConfigError.keyError "GITHUB_TOKEN")) ∧
      (getEnvOpt env "GITHUB_TOKEN" ≠ none →
        exceptOk (resolve_api_config env) = true)) := by
  refine ⟨?_, ?_, ?_, ?_⟩
  · intro h
    simp only [getEnvD, h, Option.getD_none]
  · intro h1 h2
    constructor
    · simp only [resolve_api_config]
      rw [if_neg h1, if_neg h2]
    · simp only [build_model]
      rw [if_neg h2, if_neg h1]
  · intro h
    refine ⟨?_, ?_, ?_, ?_, ?_⟩
    · simp only [build_model]
      rw [if_pos h]
      rfl
    · intro hE
      simp only [resolve_api_config]
      rw [h, if_neg (by decide), if_pos rfl, hE]
    · intro hE hV
      simp only [resolve_api_config]
      rw [h, if_neg (by decide), if_pos rfl]
      cases hx : getEnvOpt env "AZURE_OPENAI_ENDPOINT" with
      | none => exact absurd hx hE
      | some e => rw [hV]
    · intro hE hV hD
      simp only [resolve_api_config]
      rw [h, if_neg (by decide), if_pos rfl]
      cases hx : getEnvOpt env "AZURE_OPENAI_ENDPOINT" with
      | none => exact absurd hx hE
      | some e =>
        cases hv : getEnvOpt env "AZURE_OPENAI_VERSION" with
        | none => exact absurd hv hV
        | some v => rw [hD]
    · intro hE hV hD
      simp only [resolve_api_config]
      rw [h]
      cases hx : getEnvOpt env "AZURE_OPENAI_ENDPOINT" with
      | none => exact absurd hx hE
      | some e =>
        cases hv : getEnvOpt env "AZURE_OPENAI_VERSION" with
        | none => exact absurd hv hV
        | some v =>
          cases hd : getEnvOpt env "AZURE_OPENAI_CHAT_DEPLOYMENT" with
          | none => exact absurd hd hD
          | some d =>
            rw [if_neg (by decide), if_pos rfl]
            rfl
  · intro h
    refine ⟨?_, ?_, ?_⟩
    · simp only [build_model]
      rw [h, if_neg (by decide), if_pos rfl]
      rfl
    · intro hT
      simp only [resolve_api_config]
      rw [h, if_pos rfl, hT]
    · intro hT
      simp only [resolve_api_config]
      rw [h, if_pos rfl]
      cases ht : getEnvOpt env "GITHUB_TOKEN" with
      | none => exact absurd ht hT
      | some t => rfl

/-- Witness for the amended C10 on three concrete environments, exercising
the ValueError host, the github success path, the azure client construction,
and the azure KeyError on the missing endpoint variable. -/
theorem config_resolution_amended_witness :
    resolve_api_config [("API_HOST", "local")] = Except.error ConfigError.valueError ∧
    exceptOk (resolve_api_config [("API_HOST", "GitHub"), ("GITHUB_TOKEN", "tok")]) = true ∧
    exceptOk (build_model [("API_HOST", "AZURE")]) = true ∧
    resolve_api_config [("API_HOST", "AZURE")] =
      Except.error (ConfigError.keyError "AZURE_OPENAI_ENDPOINT") := by
  have h1 := config_resolution_amended [("API_HOST", "local")]
  have h2 := config_resolution_amended [("API_HOST", "GitHub"), ("GITHUB_TOKEN", "tok")]
  have h3 := config_resolution_amended [("API_HOST", "AZURE")]
  exact ⟨(h1.2.1 (by decide) (by decide)).1,
         (h2.2.2.2 (by decide)).2.2 (by decide),
         (h3.2.2.1 (by decide)).1,
         (h3.2.2.1 (by decide)).2.1 (by decide)⟩
